import Mathlib

/-!
# Verification of the donor-database aggregation core

Shallow embedding of the `donordatabase` package (modules `types.py`,
`donor.py`, `database.py`).  Monetary amounts are modelled as exact
rationals (`ℚ`), Python `datetime` values as integers (`Option ℤ` for
optional dates), and Python's insertion-ordered `dict` as an association
list in which overwriting a key keeps its position and a fresh key is
appended at the end.  Console warnings are modelled as `Bool` flags where
a claim depends on them.
-/

namespace DonorDB

/-- `Name` namedtuple from `types.py`. -/
structure Name where
  first : String
  last : String
  full : String
deriving DecidableEq

/-- `Address` frozen dataclass from `types.py`. -/
structure Address where
  street1 : String
  street2 : String
  city : String
  state : String
  postal : Int
deriving DecidableEq

/-- `Range` namedtuple from `types.py` (tier bounds). -/
structure Range where
  lower : ℚ
  upper : ℚ
deriving DecidableEq

/-- The three contribution-category strings accepted by the ledger
(`'Payment' | 'Donation' | 'Refund'`). -/
inductive ContribType where
  | Payment
  | Donation
  | Refund
deriving DecidableEq

/-- The `DonorLevel` enum of `types.py`: eleven members in declaration
order. -/
inductive DonorLevel where
  | ZERO | ONE | TWO | THREE | FOUR | FIVE
  | SIX | SEVEN | EIGHT | NINE | TEN
deriving DecidableEq

/-- The `Range` payload of each `DonorLevel` member. -/
def DonorLevel.value : DonorLevel → Range
  | .ZERO => ⟨0, 500⟩
  | .ONE => ⟨500, 1000⟩
  | .TWO => ⟨1000, 2500⟩
  | .THREE => ⟨2500, 5000⟩
  | .FOUR => ⟨5000, 7500⟩
  | .FIVE => ⟨7500, 10000⟩
  | .SIX => ⟨10000, 25000⟩
  | .SEVEN => ⟨25000, 50000⟩
  | .EIGHT => ⟨50000, 75000⟩
  | .NINE => ⟨75000, 100000⟩
  | .TEN => ⟨100000, 250000⟩

/-- Iteration order of `for level in DonorLevel` (declaration order). -/
def DonorLevel.list : List DonorLevel :=
  [.ZERO, .ONE, .TWO, .THREE, .FOUR, .FIVE, .SIX, .SEVEN, .EIGHT, .NINE, .TEN]

/-- `Payment` frozen dataclass from `types.py`, after `__post_init__`
date resolution has run. -/
structure Payment where
  transaction_id : Int
  user_id : Int
  contribution_type : ContribType
  actual_date : Option Int
  posted_date : Option Int
  firstname : String
  lastname : String
  fullname : String
  email : String
  payment_type : String
  response_meta : String
  amount : ℚ
  gl_code : Int
  street1 : String
  street2 : String
  city : String
  state : String
  postal : Int
deriving DecidableEq

/-- `Payment.__post_init__` date defaulting: each absent date is replaced
by the other one (`actual = actual if actual else posted`, and
symmetrically), computed from the two original field values. -/
def resolveActual (actual_date posted_date : Option Int) : Option Int :=
  match actual_date with
  | some a => some a
  | none => posted_date

/-- Symmetric half of the `__post_init__` date defaulting. -/
def resolvePosted (actual_date posted_date : Option Int) : Option Int :=
  match posted_date with
  | some p => some p
  | none => actual_date

/-- The condition under which `Payment.__post_init__` emits its
missing-date warning: `if not self.actual_date and self.posted_date`,
evaluated on the original field values. -/
def Payment.postWarn (actual_date posted_date : Option Int) : Bool :=
  actual_date.isNone && posted_date.isSome

/-- Constructing a `Payment` (the dataclass `__init__` followed by
`__post_init__`). -/
def Payment.make (transaction_id user_id : Int) (contribution_type : ContribType)
    (actual_date posted_date : Option Int)
    (firstname lastname fullname email payment_type response_meta : String)
    (amount : ℚ) (gl_code : Int)
    (street1 street2 city state : String) (postal : Int) : Payment :=
  { transaction_id := transaction_id
    user_id := user_id
    contribution_type := contribution_type
    actual_date := resolveActual actual_date posted_date
    posted_date := resolvePosted actual_date posted_date
    firstname := firstname
    lastname := lastname
    fullname := fullname
    email := email
    payment_type := payment_type
    response_meta := response_meta
    amount := amount
    gl_code := gl_code
    street1 := street1
    street2 := street2
    city := city
    state := state
    postal := postal }

/-- The `_contributions` dict of a `Donor`: one running total per
category, initialised to `{'Payment': 0.0, 'Donation': 0.0, 'Refund': 0.0}`. -/
structure Contributions where
  payment : ℚ
  donation : ℚ
  refund : ℚ
deriving DecidableEq

/-- `self._contributions[t] += a`. -/
def Contributions.add (c : Contributions) (t : ContribType) (a : ℚ) : Contributions :=
  match t with
  | .Payment => { c with payment := c.payment + a }
  | .Donation => { c with donation := c.donation + a }
  | .Refund => { c with refund := c.refund + a }

/-- `sum(self._contributions.values())`. -/
def Contributions.total (c : Contributions) : ℚ :=
  c.payment + c.donation + c.refund

/-- Insertion-ordered-dict write `d[k] = v`: overwriting an existing key
keeps its position, a fresh key is appended at the end. -/
def dictInsert {β : Type} (k : Int) (v : β) : List (Int × β) → List (Int × β)
  | [] => [(k, v)]
  | (k₀, v₀) :: rest =>
      if k₀ = k then (k, v) :: rest else (k₀, v₀) :: dictInsert k v rest

/-- Dict lookup `d.get(k)`. -/
def dictGet? {β : Type} (k : Int) : List (Int × β) → Option β
  | [] => none
  | (k₀, v₀) :: rest => if k₀ = k then some v₀ else dictGet? k rest

/-- `" ".join(s.split())`: collapse whitespace runs. -/
def normalizeSpaces (s : String) : String :=
  String.intercalate " " ((s.split Char.isWhitespace).filter (fun w => decide (w ≠ "")))

/-- The `Donor` class state (`donor.py`).  The lazily-cached
`_donor_level` field is not part of the state: the registry never
mutates a donor after the level is first read, so `Donor.level` is
modelled as the pure classification function. -/
structure Donor where
  id : Int
  name : Name
  email : String
  address : Address
  membership_exp : Option Int
  payments : List (Int × Payment)
  contributions : Contributions
deriving DecidableEq

/-- `Donor.__init__`. -/
def Donor.init (user_id : Int) (firstname lastname fullname email : String)
    (street1 street2 city state : String) (postal : Int)
    (membership_exp : Option Int) : Donor :=
  { id := user_id
    name :=
      { first := firstname.trim
        last := lastname.trim
        full :=
          if fullname ≠ "" then normalizeSpaces fullname
          else firstname.trim ++ " " ++ lastname.trim }
    email := email.trim
    address :=
      { street1 := street1.trim
        street2 := street2.trim
        city := city.trim
        state := state.trim
        postal := postal }
    membership_exp := membership_exp
    payments := []
    contributions := ⟨0, 0, 0⟩ }

/-- `Donor.num_payments`. -/
def Donor.num_payments (d : Donor) : Nat := d.payments.length

/-- The values of the `_payments` dict in insertion order. -/
def Donor.paymentsValues (d : Donor) : List Payment := d.payments.map Prod.snd

/-- `Donor.total_contributions = sum(self._contributions.values())`. -/
def Donor.total_contributions (d : Donor) : ℚ := d.contributions.total

/-- `Donor.level`: first `DonorLevel` (in declaration order) whose upper
bound strictly exceeds `abs(total_contributions)`; `none` when the loop
falls through without a match. -/
def classifyLevel (total : ℚ) : Option DonorLevel :=
  DonorLevel.list.find? (fun lvl => decide (|total| < lvl.value.upper))

/-- `Donor.level` property. -/
def Donor.level (d : Donor) : Option DonorLevel :=
  classifyLevel d.total_contributions

/-- `Donor.add_payment`: on a matching `user_id`, build the `Payment`,
store it under its transaction id (overwriting any previous entry) and
add its amount to the category running total; on a mismatch, warn and
return `None` without mutating.  Returns `(created payment, new state)`. -/
def Donor.add_payment (d : Donor) (transaction_id user_id : Int)
    (contribution_type : ContribType) (actual_date posted_date : Option Int)
    (payment_type response_meta : String) (amount : ℚ) (gl_code : Int) :
    Option Payment × Donor :=
  if d.id = user_id then
    let p := Payment.make transaction_id user_id contribution_type
      actual_date posted_date d.name.first d.name.last d.name.full d.email
      payment_type response_meta amount gl_code
      d.address.street1 d.address.street2 d.address.city d.address.state
      d.address.postal
    (some p,
      { d with
        payments := dictInsert transaction_id p d.payments
        contributions := d.contributions.add p.contribution_type p.amount })
  else
    (none, d)

/-- The shared shape of the linear "largest so far" loops
(`Donor.largest_payment`, `Donor.largest_donation`,
`DonorDatabase.top_donor`): fold with a running maximum started at `0.0`
and a strict `>` comparison, restricted to elements satisfying `pred`. -/
def maxFold {α : Type} (key : α → ℚ) (pred : α → Bool) (l : List α) : ℚ × Option α :=
  l.foldl
    (fun acc x =>
      if pred x then (if acc.1 < key x then (key x, some x) else acc) else acc)
    ((0 : ℚ), (none : Option α))

/-- The result of a "largest so far" loop: the element stored when the
loop ends (`None` when nothing ever beat the initial `0.0`). -/
def maxLoop {α : Type} (key : α → ℚ) (pred : α → Bool) (l : List α) : Option α :=
  (maxFold key pred l).2

/-- `Donor.largest_payment`. -/
def Donor.largest_payment (d : Donor) : Option Payment :=
  maxLoop Payment.amount
    (fun p => decide (p.contribution_type = ContribType.Payment)) d.paymentsValues

/-- `Donor.largest_donation`. -/
def Donor.largest_donation (d : Donor) : Option Payment :=
  maxLoop Payment.amount
    (fun p => decide (p.contribution_type = ContribType.Donation)) d.paymentsValues

/-- One parsed dataframe row as handed to `DonorDatabase.__init__` by
`self._df.itertuples()` (loader columns, `database.py`). -/
structure Row where
  user_id : Int
  firstname : String
  lastname : String
  full_name : String
  email : String
  street_1 : String
  street_2 : String
  city : String
  state : String
  postal : Int
  membership_expiration_date : Option Int
  transaction_id : Int
  type : ContribType
  actual_date : Option Int
  posted_date : Option Int
  payment_type : String
  response_meta : String
  amount : ℚ
  gl_code : Int
deriving DecidableEq

/-- The `DonorDatabase` state after construction: the insertion-ordered
`_donors` dict keyed by user id and the flat `_payments` dict keyed by
transaction id.  The memoized `None`-sentinel caches are not state: the
database is never mutated after `__init__`, so each cached view is
modelled as the pure function that fills it. -/
structure DonorDatabase where
  donors : List (Int × Donor)
  payments : List (Int × Payment)
deriving DecidableEq

/-- One iteration of the `__init__` ingestion loop: fetch the row's
donor (creating and appending it first when the user id is new), call
`add_payment` on it, and when a payment was returned store it in the
flat `_payments` dict (last write wins on duplicate transaction ids,
after a warning). -/
def DonorDatabase.ingestRow (db : DonorDatabase) (row : Row) : DonorDatabase :=
  let d₀ := (dictGet? row.user_id db.donors).getD
    (Donor.init row.user_id row.firstname row.lastname row.full_name row.email
      row.street_1 row.street_2 row.city row.state row.postal
      row.membership_expiration_date)
  let r := d₀.add_payment row.transaction_id row.user_id row.type
    row.actual_date row.posted_date row.payment_type row.response_meta
    row.amount row.gl_code
  { donors := dictInsert row.user_id r.2 db.donors
    payments :=
      match r.1 with
      | some p => dictInsert p.transaction_id p db.payments
      | none => db.payments }

/-- `DonorDatabase.__init__` over the concatenated rows of all input
files. -/
def DonorDatabase.build (rows : List Row) : DonorDatabase :=
  rows.foldl DonorDatabase.ingestRow ⟨[], []⟩

/-- The donors of the database in `_donors` insertion order. -/
def DonorDatabase.donorValues (db : DonorDatabase) : List Donor :=
  db.donors.map Prod.snd

/-- `DonorDatabase.top_donor`: linear scan with `max_contribution`
started at `0.0` and a strict `>` comparison. -/
def DonorDatabase.top_donor (db : DonorDatabase) : Option Donor :=
  maxLoop Donor.total_contributions (fun _ => true) db.donorValues

/-- `DonorDatabase.total_contributions`: running sum over all donors. -/
def DonorDatabase.total_contributions (db : DonorDatabase) : ℚ :=
  db.donorValues.foldl (fun acc d => acc + d.total_contributions) 0

/-- Comparison used by `_create_donors_by_contribution`:
`sorted(self._donors, key=..., reverse=True)` sorts the entries by total
contributions in descending order and, being Python's stable sort, keeps
entries with equal totals in their original relative order.  Insertion
sort with this non-strict relation has exactly that behaviour. -/
def byContribRel (a b : Int × Donor) : Prop :=
  b.2.total_contributions ≤ a.2.total_contributions

instance : DecidableRel byContribRel := fun a b =>
  inferInstanceAs (Decidable (b.2.total_contributions ≤ a.2.total_contributions))

instance : IsTotal (Int × Donor) byContribRel :=
  ⟨fun a b => le_total b.2.total_contributions a.2.total_contributions⟩

instance : IsTrans (Int × Donor) byContribRel :=
  ⟨fun _ _ _ h₁ h₂ => le_trans h₂ h₁⟩

/-- `_create_donors_by_contribution`: the `_donors` entries reordered by
total contributions, descending, stably. -/
def DonorDatabase.donors_by_contribution (db : DonorDatabase) : List (Int × Donor) :=
  List.insertionSort byContribRel db.donors

/-- The values of `_donors_by_contribution` in their sorted order. -/
def DonorDatabase.rankedDonors (db : DonorDatabase) : List Donor :=
  db.donors_by_contribution.map Prod.snd

/-- The `get_top_donors` loop body: walk the ranked donors with an index
starting at 0 and break as soon as `idx > n` (so indices `0..n` are
appended). -/
def topDonorsLoop (n idx : Int) : List Donor → List Donor
  | [] => []
  | d :: rest => if idx > n then [] else d :: topDonorsLoop n (idx + 1) rest

/-- `DonorDatabase.get_top_donors`. -/
def DonorDatabase.get_top_donors (db : DonorDatabase) (n : Int) : List Donor :=
  topDonorsLoop n 0 db.rankedDonors

/-- The `get_donors_by_level` grouping step: append the donor to its
level's list when the level is already a key, otherwise append a new
`(level, [donor])` entry at the end.  The key is the donor's `level`,
which is `none` for totals outside every tier range (Python stores such
donors under the `None` key). -/
def insertGrouped (k : Option DonorLevel) (d : Donor) :
    List (Option DonorLevel × List Donor) → List (Option DonorLevel × List Donor)
  | [] => [(k, [d])]
  | (k₀, ds) :: rest =>
      if k₀ = k then (k₀, ds ++ [d]) :: rest else (k₀, ds) :: insertGrouped k d rest

/-- `get_donors_by_level()`: group the contribution-ranked donors by
level, preserving rank order inside each group. -/
def DonorDatabase.donors_by_level (db : DonorDatabase) :
    List (Option DonorLevel × List Donor) :=
  db.rankedDonors.foldl (fun gs d => insertGrouped d.level d gs) []

/-- The fields of `DonorLevelStats` the claims are about.  The five
numpy distribution statistics (max/min/mean/std/median) over `payments`
are not needed by any claim and are left to the presentation layer. -/
structure DonorLevelStats where
  level : Option DonorLevel
  n_donors : Nat
  n_payments : Nat
  total : ℚ
  payments : List ℚ
deriving DecidableEq

/-- The per-level aggregation loop of `get_donor_level_stats`: donor
count, summed payment count, summed total contributions and the
concatenated payment amounts of one level's donors. -/
def levelStatsOf (lvl : Option DonorLevel) (ds : List Donor) : DonorLevelStats :=
  { level := lvl
    n_donors := ds.length
    n_payments := (ds.map Donor.num_payments).sum
    total := (ds.map Donor.total_contributions).sum
    payments := (ds.map (fun d => d.paymentsValues.map Payment.amount)).flatten }

/-- `get_donor_level_stats()`: one `DonorLevelStats` per entry of
`get_donors_by_level()`. -/
def DonorDatabase.donor_level_stats (db : DonorDatabase) :
    List (Option DonorLevel × DonorLevelStats) :=
  db.donors_by_level.map (fun g => (g.1, levelStatsOf g.1 g.2))

/-- A loader row with the given user id, transaction id, category and
amount, all text fields blank (concrete test fixture). -/
def mkRow (user tid : Int) (t : ContribType) (amount : ℚ) : Row :=
  { user_id := user
    firstname := ""
    lastname := ""
    full_name := ""
    email := ""
    street_1 := ""
    street_2 := ""
    city := ""
    state := ""
    postal := 0
    membership_expiration_date := none
    transaction_id := tid
    type := t
    actual_date := none
    posted_date := none
    payment_type := ""
    response_meta := ""
    amount := amount
    gl_code := 0 }

end DonorDB

namespace DonorDB

/-! ## Theorems -/

/-- `topDonorsLoop` returns `[]` once the index has passed `n`. -/
theorem topDonorsLoop_stop (n idx : Int) (h : n < idx) (l : List Donor) :
    topDonorsLoop n idx l = [] := by
  cases l <;> simp [topDonorsLoop, h]

/-- While the index has not passed `n`, `topDonorsLoop` takes the next
`(n - idx) + 1` elements. -/
theorem topDonorsLoop_take (l : List Donor) :
    ∀ n idx : Int, idx ≤ n → topDonorsLoop n idx l = l.take ((n - idx).toNat + 1) := by
  induction l with
  | nil => intro n idx _; simp [topDonorsLoop]
  | cons d rest ih =>
    intro n idx h
    rw [topDonorsLoop, if_neg (not_lt.mpr h)]
    rcases lt_or_eq_of_le h with h' | h'
    · rw [ih n (idx + 1) (by omega)]
      have e : (n - idx).toNat + 1 = ((n - (idx + 1)).toNat + 1) + 1 := by omega
      rw [e, List.take_succ_cons]
    · subst h'
      rw [topDonorsLoop_stop _ _ (by omega)]
      have e : (idx - idx).toNat + 1 = 1 := by omega
      rw [e, List.take_succ_cons, List.take_zero]

/-- One more step of a "largest so far" loop. -/
theorem maxFold_append {α : Type} (key : α → ℚ) (pred : α → Bool)
    (l : List α) (x : α) :
    maxFold key pred (l ++ [x]) =
      (if pred x then
        (if (maxFold key pred l).1 < key x then (key x, some x)
          else maxFold key pred l)
      else maxFold key pred l) := by
  simp [maxFold, List.foldl_append]

/-- Full characterisation of a "largest so far" loop with running
maximum started at `0.0` and strict `>` comparison: it returns `none`
exactly when no selected element has a strictly positive key, and
otherwise the first-encountered selected element whose key is maximal
(later ties never displace it, because the comparison is strict). -/
theorem maxFold_spec {α : Type} (key : α → ℚ) (pred : α → Bool) (l : List α) :
    ((maxFold key pred l).2 = none →
      (maxFold key pred l).1 = 0 ∧ ∀ x ∈ l, pred x = true → key x ≤ 0) ∧
    (∀ m, (maxFold key pred l).2 = some m →
      (maxFold key pred l).1 = key m ∧ m ∈ l ∧ pred m = true ∧ 0 < key m ∧
      (∀ y ∈ l, pred y = true → key y ≤ key m) ∧
      ∃ l₁ l₂, l = l₁ ++ m :: l₂ ∧
        ∀ y ∈ l₁, pred y = true → key y < key m) := by
  induction l using List.reverseRecOn with
  | nil =>
    constructor
    · intro _
      exact ⟨rfl, by simp⟩
    · intro m hm
      simp [maxFold] at hm
  | append_singleton l x ih =>
    obtain ⟨ihn, ihs⟩ := ih
    rw [maxFold_append]
    by_cases hx : pred x = true
    · rw [if_pos hx]
      by_cases hlt : (maxFold key pred l).1 < key x
      · rw [if_pos hlt]
        have hposx : 0 < key x := by
          rcases e : (maxFold key pred l).2 with _ | m₀
          · obtain ⟨e1, _⟩ := ihn e
            rw [e1] at hlt
            exact hlt
          · obtain ⟨e1, _, _, e4, _, _⟩ := ihs m₀ e
            rw [e1] at hlt
            exact e4.trans hlt
        have hub : ∀ y ∈ l, pred y = true → key y ≤ key x := by
          intro y hy hpy
          rcases e : (maxFold key pred l).2 with _ | m₀
          · obtain ⟨e1, e2⟩ := ihn e
            rw [e1] at hlt
            exact (e2 y hy hpy).trans hlt.le
          · obtain ⟨e1, _, _, _, e5, _⟩ := ihs m₀ e
            rw [e1] at hlt
            exact (e5 y hy hpy).trans hlt.le
        have hstrict : ∀ y ∈ l, pred y = true → key y < key x := by
          intro y hy hpy
          rcases e : (maxFold key pred l).2 with _ | m₀
          · obtain ⟨e1, e2⟩ := ihn e
            rw [e1] at hlt
            exact lt_of_le_of_lt (e2 y hy hpy) hlt
          · obtain ⟨e1, _, _, _, e5, _⟩ := ihs m₀ e
            rw [e1] at hlt
            exact lt_of_le_of_lt (e5 y hy hpy) hlt
        constructor
        · intro hnone
          simp at hnone
        · intro m hm
          simp only [Option.some.injEq] at hm
          subst hm
          refine ⟨rfl, by simp, hx, hposx, ?_, l, [], by simp, hstrict⟩
          intro y hy hpy
          rcases List.mem_append.mp hy with hy | hy
          · exact hub y hy hpy
          · simp only [List.mem_singleton] at hy
            subst hy
            exact le_refl _
      · rw [if_neg hlt]
        push_neg at hlt
        constructor
        · intro hnone
          obtain ⟨e1, e2⟩ := ihn hnone
          refine ⟨e1, ?_⟩
          intro y hy hpy
          rcases List.mem_append.mp hy with hy | hy
          · exact e2 y hy hpy
          · simp only [List.mem_singleton] at hy
            subst hy
            rw [e1] at hlt
            exact hlt
        · intro m hm
          obtain ⟨e1, e2, e3, e4, e5, l₁, l₂, e6, e7⟩ := ihs m hm
          refine ⟨e1, List.mem_append.mpr (Or.inl e2), e3, e4, ?_,
            l₁, l₂ ++ [x], by rw [e6]; simp, e7⟩
          intro y hy hpy
          rcases List.mem_append.mp hy with hy | hy
          · exact e5 y hy hpy
          · simp only [List.mem_singleton] at hy
            subst hy
            rw [e1] at hlt
            exact hlt
    · rw [if_neg hx]
      constructor
      · intro hnone
        obtain ⟨e1, e2⟩ := ihn hnone
        refine ⟨e1, ?_⟩
        intro y hy hpy
        rcases List.mem_append.mp hy with hy | hy
        · exact e2 y hy hpy
        · simp only [List.mem_singleton] at hy
          subst hy
          exact absurd hpy hx
      · intro m hm
        obtain ⟨e1, e2, e3, e4, e5, l₁, l₂, e6, e7⟩ := ihs m hm
        refine ⟨e1, List.mem_append.mpr (Or.inl e2), e3, e4, ?_,
          l₁, l₂ ++ [x], by rw [e6]; simp, e7⟩
        intro y hy hpy
        rcases List.mem_append.mp hy with hy | hy
        · exact e5 y hy hpy
        · simp only [List.mem_singleton] at hy
          subst hy
          exact absurd hpy hx

/-- The ranked view has one entry per donor. -/
theorem length_rankedDonors (db : DonorDatabase) :
    db.rankedDonors.length = db.donors.length := by
  simp [DonorDatabase.rankedDonors, DonorDatabase.donors_by_contribution,
    List.length_insertionSort]

/-- C1 (amended): for every total `t` with `|t| < 250000` the classifier
returns exactly one tier, namely one whose half-open range
`[lower, upper)` contains `|t|` (being `find?` over the ascending range
list, it is the first range whose upper bound strictly exceeds `|t|`);
in particular `t = 500` classifies into tier one and `t = 499.99` into
tier zero.  For `|t| ≥ 250000` the loop falls through and no tier is
returned, which is why the universal claim needs the bound. -/
theorem classifyLevel_range_spec (t : ℚ) (h : |t| < 250000) :
    (∃ lvl, classifyLevel t = some lvl ∧
      lvl.value.lower ≤ |t| ∧ |t| < lvl.value.upper) ∧
    classifyLevel 500 = some DonorLevel.ONE ∧
    classifyLevel (49999/100 : ℚ) = some DonorLevel.ZERO := by
  refine ⟨?_, by decide, ?_⟩
  case refine_2 =>
    have h499 : |((49999 : ℚ)/100)| < 500 := by
      rw [abs_of_nonneg (by norm_num)]
      norm_num
    simp [classifyLevel, DonorLevel.list, DonorLevel.value, h499]
  case refine_1 =>
    have h0 := abs_nonneg t
    rcases lt_or_le |t| 500 with h1 | h1
    · exact ⟨.ZERO, by simp [classifyLevel, DonorLevel.list, DonorLevel.value, h1], h0, h1⟩
    rcases lt_or_le |t| 1000 with h2 | h2
    · exact ⟨.ONE, by simp [classifyLevel, DonorLevel.list, DonorLevel.value,
        h1.not_lt, h2], h1, h2⟩
    rcases lt_or_le |t| 2500 with h3 | h3
    · exact ⟨.TWO, by simp [classifyLevel, DonorLevel.list, DonorLevel.value,
        h1.not_lt, h2.not_lt, h3], h2, h3⟩
    rcases lt_or_le |t| 5000 with h4 | h4
    · exact ⟨.THREE, by simp [classifyLevel, DonorLevel.list, DonorLevel.value,
        h1.not_lt, h2.not_lt, h3.not_lt, h4], h3, h4⟩
    rcases lt_or_le |t| 7500 with h5 | h5
    · exact ⟨.FOUR, by simp [classifyLevel, DonorLevel.list, DonorLevel.value,
        h1.not_lt, h2.not_lt, h3.not_lt, h4.not_lt, h5], h4, h5⟩
    rcases lt_or_le |t| 10000 with h6 | h6
    · exact ⟨.FIVE, by simp [classifyLevel, DonorLevel.list, DonorLevel.value,
        h1.not_lt, h2.not_lt, h3.not_lt, h4.not_lt, h5.not_lt, h6], h5, h6⟩
    rcases lt_or_le |t| 25000 with h7 | h7
    · exact ⟨.SIX, by simp [classifyLevel, DonorLevel.list, DonorLevel.value,
        h1.not_lt, h2.not_lt, h3.not_lt, h4.not_lt, h5.not_lt, h6.not_lt, h7], h6, h7⟩
    rcases lt_or_le |t| 50000 with h8 | h8
    · exact ⟨.SEVEN, by simp [classifyLevel, DonorLevel.list, DonorLevel.value,
        h1.not_lt, h2.not_lt, h3.not_lt, h4.not_lt, h5.not_lt, h6.not_lt, h7.not_lt,
        h8], h7, h8⟩
    rcases lt_or_le |t| 75000 with h9 | h9
    · exact ⟨.EIGHT, by simp [classifyLevel, DonorLevel.list, DonorLevel.value,
        h1.not_lt, h2.not_lt, h3.not_lt, h4.not_lt, h5.not_lt, h6.not_lt, h7.not_lt,
        h8.not_lt, h9], h8, h9⟩
    rcases lt_or_le |t| 100000 with h10 | h10
    · exact ⟨.NINE, by simp [classifyLevel, DonorLevel.list, DonorLevel.value,
        h1.not_lt, h2.not_lt, h3.not_lt, h4.not_lt, h5.not_lt, h6.not_lt, h7.not_lt,
        h8.not_lt, h9.not_lt, h10], h9, h10⟩
    · exact ⟨.TEN, by simp [classifyLevel, DonorLevel.list, DonorLevel.value,
        h1.not_lt, h2.not_lt, h3.not_lt, h4.not_lt, h5.not_lt, h6.not_lt, h7.not_lt,
        h8.not_lt, h9.not_lt, h10.not_lt, h], h10, h⟩

/-- Witness for C1's amended theorem at `t = 750`. -/
theorem classifyLevel_range_spec_witness :
    |(750 : ℚ)| < 250000 ∧
    ((∃ lvl, classifyLevel 750 = some lvl ∧
        lvl.value.lower ≤ |(750 : ℚ)| ∧ |(750 : ℚ)| < lvl.value.upper) ∧
      classifyLevel 500 = some DonorLevel.ONE ∧
      classifyLevel (49999/100 : ℚ) = some DonorLevel.ZERO) :=
  ⟨by decide, classifyLevel_range_spec 750 (by decide)⟩

/-- C1 counterexample to the unrestricted claim: at the total
`t = 250000` the classifier assigns no tier at all, so it is not true
that *every* total classifies into one of the eleven ranges. -/
theorem classifyLevel_out_of_range : classifyLevel 250000 = none := by decide

/-- C3: a payment whose `user_id` differs from the donor's id is
rejected: `add_payment` returns `None` and the donor state (payments
dict, category running totals, and hence `total_contributions`) is
completely unchanged. -/
theorem add_payment_mismatch (d : Donor) (tid uid : Int) (ct : ContribType)
    (ad pd : Option Int) (pt rm : String) (amt : ℚ) (gl : Int)
    (h : d.id ≠ uid) :
    d.add_payment tid uid ct ad pd pt rm amt gl = (none, d) := by
  simp [Donor.add_payment, h]

/-- Witness for C3 on a concrete donor (id 1) and payment (user id 2). -/
theorem add_payment_mismatch_witness :
    (Donor.init 1 "a" "b" "" "e" "s" "t" "c" "st" 0 none).id ≠ 2 ∧
    (Donor.init 1 "a" "b" "" "e" "s" "t" "c" "st" 0 none).add_payment 5 2
        ContribType.Payment none none "" "" 10 0 =
      (none, Donor.init 1 "a" "b" "" "e" "s" "t" "c" "st" 0 none) :=
  ⟨by decide, add_payment_mismatch _ 5 2 ContribType.Payment none none "" "" 10 0
    (by decide)⟩

/-- C2: evaluating `add_payment` at the claim's failing input.  Adding
transaction id 10 with amount 100 and then re-adding the same
transaction id with amount 50 overwrites the stored payment (only the
amount-50 entry remains) but the running total is 150: the old amount is
*not* reversed before the new one is applied, so totals double count
instead of reflecting only the latest amount. -/
theorem add_payment_readd_double_counts :
    ((((Donor.init 1 "" "" "" "" "" "" "" "" 0 none).add_payment 10 1
            ContribType.Payment none none "" "" 100 0).2.add_payment 10 1
          ContribType.Payment none none "" "" 50 0).2.payments.map
        (fun p => p.2.amount) = [50]) ∧
    (((Donor.init 1 "" "" "" "" "" "" "" "" 0 none).add_payment 10 1
            ContribType.Payment none none "" "" 100 0).2.add_payment 10 1
          ContribType.Payment none none "" "" 50 0).2.total_contributions = 150 := by
  constructor
  · simp [Donor.init, Donor.add_payment, Payment.make, dictInsert,
      Donor.paymentsValues]
  · simp [Donor.init, Donor.add_payment, Payment.make, dictInsert,
      Donor.total_contributions, Contributions.add, Contributions.total]
    norm_num

/-- C9: evaluating the `__post_init__` warning condition and the date
defaulting.  With both dates absent no warning is emitted (`postWarn ...
= false`), although the claim — and the code's own warning text — say
that case must be flagged; instead the warning fires when only the
posted date is present.  The defaulting half of the claim does hold: a
payment with only a nominal date resolves both fields to it. -/
theorem post_init_warning_eval :
    Payment.postWarn none none = false ∧
    Payment.postWarn none (some 10) = true ∧
    (Payment.make 1 1 ContribType.Payment (some 5) none "" "" "" "" "" "" 10 0
        "" "" "" "" 0).actual_date = some 5 ∧
    (Payment.make 1 1 ContribType.Payment (some 5) none "" "" "" "" "" "" 10 0
        "" "" "" "" 0).posted_date = some 5 := by
  refine ⟨rfl, rfl, rfl, rfl⟩

/-- C6: for every `n ≥ 0`, `get_top_donors n` is the prefix of length
`min (n+1) (number of donors)` of the ranked-by-contribution sequence —
`n+1` entries, not `n`, when the registry holds more than `n+1`
donors. -/
theorem get_top_donors_spec (db : DonorDatabase) (n : Int) (h : 0 ≤ n) :
    db.get_top_donors n = db.rankedDonors.take (n.toNat + 1) ∧
    (db.get_top_donors n).length = min (n.toNat + 1) db.donors.length := by
  have e : db.get_top_donors n = db.rankedDonors.take (n.toNat + 1) := by
    unfold DonorDatabase.get_top_donors
    rw [topDonorsLoop_take _ n 0 h]
    congr 2
    omega
  refine ⟨e, ?_⟩
  rw [e, List.length_take, length_rankedDonors]

/-- Witness for C6: a three-donor database with `n = 1` yields the first
two ranked donors. -/
theorem get_top_donors_spec_witness :
    (0 : Int) ≤ 1 ∧
    ((DonorDatabase.build
          [mkRow 1 101 ContribType.Payment 10, mkRow 2 102 ContribType.Payment 30,
            mkRow 3 103 ContribType.Payment 20]).get_top_donors 1 =
        (DonorDatabase.build
          [mkRow 1 101 ContribType.Payment 10, mkRow 2 102 ContribType.Payment 30,
            mkRow 3 103 ContribType.Payment 20]).rankedDonors.take ((1 : Int).toNat + 1) ∧
      ((DonorDatabase.build
          [mkRow 1 101 ContribType.Payment 10, mkRow 2 102 ContribType.Payment 30,
            mkRow 3 103 ContribType.Payment 20]).get_top_donors 1).length =
        min ((1 : Int).toNat + 1)
          (DonorDatabase.build
            [mkRow 1 101 ContribType.Payment 10, mkRow 2 102 ContribType.Payment 30,
              mkRow 3 103 ContribType.Payment 20]).donors.length) :=
  ⟨by decide, get_top_donors_spec _ 1 (by decide)⟩

/-- Propositional restatement of `maxFold_spec` for loops whose filter
is a decidable proposition. -/
theorem maxLoop_spec_prop {α : Type} (key : α → ℚ) (P : α → Prop) [DecidablePred P]
    (l : List α) :
    (maxLoop key (fun x => decide (P x)) l = none ↔
      ∀ x ∈ l, P x → key x ≤ 0) ∧
    (∀ m, maxLoop key (fun x => decide (P x)) l = some m →
      m ∈ l ∧ P m ∧ 0 < key m ∧ (∀ y ∈ l, P y → key y ≤ key m) ∧
      ∃ l₁ l₂, l = l₁ ++ m :: l₂ ∧ ∀ y ∈ l₁, P y → key y < key m) := by
  obtain ⟨hn, hs⟩ := maxFold_spec key (fun x => decide (P x)) l
  constructor
  · constructor
    · intro e
      obtain ⟨_, h2⟩ := hn e
      exact fun x hx hpx => h2 x hx (decide_eq_true hpx)
    · intro hall
      rcases e : maxLoop key (fun x => decide (P x)) l with _ | m
      · rfl
      · obtain ⟨_, e2, e3, e4, _, _⟩ := hs m e
        exact absurd (hall m e2 (of_decide_eq_true e3)) (not_le.mpr e4)
  · intro m hm
    obtain ⟨_, e2, e3, e4, e5, l₁, l₂, e6, e7⟩ := hs m hm
    exact ⟨e2, of_decide_eq_true e3, e4,
      fun y hy hpy => e5 y hy (decide_eq_true hpy), l₁, l₂, e6,
      fun y hy hpy => e7 y hy (decide_eq_true hpy)⟩

/-- C4 (amended): for every registry containing at least one donor with
*strictly positive* total contributions, `top_donor` returns the first
donor, in registry insertion order, whose `total_contributions` is
maximal — the strict `>` comparison means the first maximum encountered
wins all ties.  The restriction is forced: the running maximum starts at
`0.0`, so when every donor's total is `≤ 0` the scan never stores a
donor and `top_donor` is `none` even on a non-empty registry. -/
theorem top_donor_spec (db : DonorDatabase)
    (h : ∃ d ∈ db.donorValues, 0 < d.total_contributions) :
    ∃ m, db.top_donor = some m ∧ m ∈ db.donorValues ∧
      (∀ d ∈ db.donorValues, d.total_contributions ≤ m.total_contributions) ∧
      ∃ l₁ l₂, db.donorValues = l₁ ++ m :: l₂ ∧
        ∀ d ∈ l₁, d.total_contributions < m.total_contributions := by
  obtain ⟨hn, hs⟩ :=
    maxFold_spec Donor.total_contributions (fun _ => true) db.donorValues
  rcases e : db.top_donor with _ | m
  · exfalso
    obtain ⟨_, h2⟩ := hn e
    obtain ⟨d, hd, hdpos⟩ := h
    exact absurd (h2 d hd rfl) (not_le.mpr hdpos)
  · obtain ⟨_, e2, _, _, e5, l₁, l₂, e6, e7⟩ := hs m e
    exact ⟨m, rfl, e2, fun d hd => e5 d hd rfl, l₁, l₂, e6,
      fun d hd => e7 d hd rfl⟩

/-- Witness for C4's amended theorem on a one-donor database. -/
theorem top_donor_spec_witness :
    (∃ d ∈ (DonorDatabase.build [mkRow 1 101 ContribType.Payment 10]).donorValues,
      0 < d.total_contributions) ∧
    (∃ m, (DonorDatabase.build [mkRow 1 101 ContribType.Payment 10]).top_donor = some m ∧
      m ∈ (DonorDatabase.build [mkRow 1 101 ContribType.Payment 10]).donorValues ∧
      (∀ d ∈ (DonorDatabase.build [mkRow 1 101 ContribType.Payment 10]).donorValues,
        d.total_contributions ≤ m.total_contributions) ∧
      ∃ l₁ l₂,
        (DonorDatabase.build [mkRow 1 101 ContribType.Payment 10]).donorValues =
          l₁ ++ m :: l₂ ∧
        ∀ d ∈ l₁, d.total_contributions < m.total_contributions) := by
  have h : ∃ d ∈ (DonorDatabase.build [mkRow 1 101 ContribType.Payment 10]).donorValues,
      0 < d.total_contributions := by
    norm_num [DonorDatabase.build, DonorDatabase.ingestRow,
      DonorDatabase.donorValues, mkRow, Donor.init, Donor.add_payment,
      Payment.make, dictGet?, dictInsert, Donor.total_contributions,
      Contributions.add, Contributions.total]
  exact ⟨h, top_donor_spec _ h⟩

/-- C4 counterexample to the unrestricted claim: a registry holding
exactly one donor whose total is `0` has `top_donor = none`, so
`top_donor` does not return a maximal ledger for *every* non-empty
registry. -/
theorem top_donor_none_counterexample :
    (DonorDatabase.build [mkRow 1 101 ContribType.Payment 0]).donors.length = 1 ∧
    (DonorDatabase.build [mkRow 1 101 ContribType.Payment 0]).top_donor = none := by
  constructor
  · norm_num [DonorDatabase.build, DonorDatabase.ingestRow, mkRow, Donor.init,
      Donor.add_payment, Payment.make, dictGet?, dictInsert]
  · norm_num [DonorDatabase.build, DonorDatabase.ingestRow,
      DonorDatabase.donorValues, DonorDatabase.top_donor, maxLoop, maxFold,
      mkRow, Donor.init, Donor.add_payment, Payment.make, dictGet?, dictInsert,
      Donor.total_contributions, Contributions.add, Contributions.total]

/-- C8 (amended): `largest_payment` (resp. `largest_donation`) returns
the first-encountered transaction of category `Payment` (resp.
`Donation`) whose amount is maximal, *among transactions of strictly
positive amount*, ties broken by insertion order; it returns absence
exactly when every transaction of that category has amount `≤ 0` — not
exactly when none exists, since the scan's running maximum starts at
`0.0` and non-positive amounts never beat it. -/
theorem largest_payment_donation_spec (d : Donor) :
    (d.largest_payment = none ↔
      ∀ p ∈ d.paymentsValues,
        p.contribution_type = ContribType.Payment → p.amount ≤ 0) ∧
    (∀ m, d.largest_payment = some m →
      m ∈ d.paymentsValues ∧ m.contribution_type = ContribType.Payment ∧
      0 < m.amount ∧
      (∀ q ∈ d.paymentsValues,
        q.contribution_type = ContribType.Payment → q.amount ≤ m.amount) ∧
      ∃ l₁ l₂, d.paymentsValues = l₁ ++ m :: l₂ ∧
        ∀ q ∈ l₁, q.contribution_type = ContribType.Payment →
          q.amount < m.amount) ∧
    (d.largest_donation = none ↔
      ∀ p ∈ d.paymentsValues,
        p.contribution_type = ContribType.Donation → p.amount ≤ 0) ∧
    (∀ m, d.largest_donation = some m →
      m ∈ d.paymentsValues ∧ m.contribution_type = ContribType.Donation ∧
      0 < m.amount ∧
      (∀ q ∈ d.paymentsValues,
        q.contribution_type = ContribType.Donation → q.amount ≤ m.amount) ∧
      ∃ l₁ l₂, d.paymentsValues = l₁ ++ m :: l₂ ∧
        ∀ q ∈ l₁, q.contribution_type = ContribType.Donation →
          q.amount < m.amount) := by
  obtain ⟨hp1, hp2⟩ := maxLoop_spec_prop Payment.amount
    (fun p => p.contribution_type = ContribType.Payment) d.paymentsValues
  obtain ⟨hd1, hd2⟩ := maxLoop_spec_prop Payment.amount
    (fun p => p.contribution_type = ContribType.Donation) d.paymentsValues
  exact ⟨hp1, hp2, hd1, hd2⟩

/-- C8 counterexample to the "absence exactly when no such transaction
exists" clause: a donor holding exactly one `Payment`-category
transaction, of amount `-5`, still gets `largest_payment = none`. -/
theorem largest_payment_nonpositive_counterexample :
    (((Donor.init 1 "" "" "" "" "" "" "" "" 0 none).add_payment 7 1
        ContribType.Payment none none "" "" (-5) 0).2.paymentsValues.map
      Payment.contribution_type = [ContribType.Payment]) ∧
    ((Donor.init 1 "" "" "" "" "" "" "" "" 0 none).add_payment 7 1
        ContribType.Payment none none "" "" (-5) 0).2.largest_payment = none := by
  constructor
  · simp [Donor.init, Donor.add_payment, Payment.make, dictInsert,
      Donor.paymentsValues]
  · norm_num [Donor.init, Donor.add_payment, Payment.make, dictInsert,
      Donor.paymentsValues, Donor.largest_payment, maxLoop, maxFold]

/-- Stability of one `orderedInsert` step: the entries with a given
total `t` are preserved, with the inserted entry (when its total is `t`)
landing in front of all of them — the insertion point only skips entries
with strictly greater totals. -/
theorem filter_orderedInsert_total (t : ℚ) (a : Int × Donor) (l : List (Int × Donor)) :
    (List.orderedInsert byContribRel a l).filter
        (fun e => decide (e.2.total_contributions = t)) =
      if a.2.total_contributions = t then
        a :: l.filter (fun e => decide (e.2.total_contributions = t))
      else l.filter (fun e => decide (e.2.total_contributions = t)) := by
  induction l with
  | nil =>
    by_cases h : a.2.total_contributions = t <;>
      simp [List.orderedInsert, List.filter, h]
  | cons b rest ih =>
    by_cases hr : byContribRel a b
    · rw [List.orderedInsert_of_le _ _ hr]
      by_cases h : a.2.total_contributions = t <;> simp [List.filter, h]
    · have e : List.orderedInsert byContribRel a (b :: rest) =
          b :: List.orderedInsert byContribRel a rest := by
        simp only [List.orderedInsert, if_neg hr]
      rw [e]
      by_cases h : a.2.total_contributions = t
      · have hb : ¬ b.2.total_contributions = t := by
          intro hbt
          exact hr (le_of_eq (hbt.trans h.symm))
        simp [List.filter_cons, hb, h, ih]
      · simp [List.filter_cons, ih, h]

/-- Stability of the full insertion sort used for the ranked view: for
every total `t` the entries whose total is `t` appear in exactly their
original order. -/
theorem filter_insertionSort_total (t : ℚ) (l : List (Int × Donor)) :
    (List.insertionSort byContribRel l).filter
        (fun e => decide (e.2.total_contributions = t)) =
      l.filter (fun e => decide (e.2.total_contributions = t)) := by
  induction l with
  | nil => rfl
  | cons a rest ih =>
    simp only [List.insertionSort]
    rw [filter_orderedInsert_total]
    by_cases h : a.2.total_contributions = t
    · rw [if_pos h, ih, List.filter_cons]
      simp [h]
    · rw [if_neg h, ih, List.filter_cons]
      simp [h]

/-- C5: the ranked-by-contribution view contains every donor of the
registry (it is a permutation of the `_donors` values), it is sorted by
`total_contributions` in descending order, and the sort is stable: for
every total `t`, the donors whose total is `t` appear in exactly their
registry insertion order. -/
theorem ranked_by_contribution_spec (db : DonorDatabase) :
    db.rankedDonors.Perm db.donorValues ∧
    db.rankedDonors.Sorted
      (fun a b => b.total_contributions ≤ a.total_contributions) ∧
    ∀ t : ℚ,
      db.rankedDonors.filter (fun d => decide (d.total_contributions = t)) =
        db.donorValues.filter (fun d => decide (d.total_contributions = t)) := by
  refine ⟨?_, ?_, ?_⟩
  · exact (List.perm_insertionSort byContribRel db.donors).map Prod.snd
  · have hs : (List.insertionSort byContribRel db.donors).Pairwise byContribRel :=
      List.sorted_insertionSort byContribRel db.donors
    exact hs.map Prod.snd (fun a b hab => hab)
  · intro t
    have key : ∀ l : List (Int × Donor),
        (l.map Prod.snd).filter (fun d => decide (d.total_contributions = t)) =
          (l.filter (fun e => decide (e.2.total_contributions = t))).map Prod.snd := by
      intro l
      induction l with
      | nil => rfl
      | cons a rest ih =>
        by_cases h : a.2.total_contributions = t <;>
          simp [List.filter_cons, h, ih]
    rw [DonorDatabase.rankedDonors, DonorDatabase.donorValues,
      DonorDatabase.donors_by_contribution, key, key,
      filter_insertionSort_total]

/-- `insertGrouped` adds exactly the inserted donor's total to the
grand total of all groups. -/
theorem insertGrouped_totals_sum (k : Option DonorLevel) (d : Donor)
    (gs : List (Option DonorLevel × List Donor)) :
    ((insertGrouped k d gs).map
        (fun g => (g.2.map Donor.total_contributions).sum)).sum =
      (gs.map (fun g => (g.2.map Donor.total_contributions).sum)).sum +
        d.total_contributions := by
  induction gs with
  | nil => simp [insertGrouped]
  | cons g₀ rest ih =>
    rcases g₀ with ⟨k₀, ds⟩
    by_cases h : k₀ = k
    · simp only [insertGrouped, if_pos h, List.map_cons, List.sum_cons,
        List.map_append, List.sum_append, List.map_nil, List.sum_nil]
      ring
    · simp only [insertGrouped, if_neg h, List.map_cons, List.sum_cons, ih]
      ring

/-- Grouping a donor list preserves the grand total of contributions. -/
theorem groupFold_totals_sum (l : List Donor) :
    ∀ gs, ((l.foldl (fun gs d => insertGrouped d.level d gs) gs).map
        (fun g => (g.2.map Donor.total_contributions).sum)).sum =
      (gs.map (fun g => (g.2.map Donor.total_contributions).sum)).sum +
        (l.map Donor.total_contributions).sum := by
  induction l with
  | nil => intro gs; simp
  | cons d rest ih =>
    intro gs
    simp only [List.foldl_cons, List.map_cons, List.sum_cons]
    rw [ih, insertGrouped_totals_sum]
    ring

/-- A key occurring after an `insertGrouped` step was either the
inserted key or a pre-existing key. -/
theorem mem_keys_insertGrouped (a : Option DonorLevel) (k : Option DonorLevel)
    (d : Donor) (gs : List (Option DonorLevel × List Donor)) :
    a ∈ (insertGrouped k d gs).map Prod.fst →
      a = k ∨ a ∈ gs.map Prod.fst := by
  induction gs with
  | nil => intro h; simp [insertGrouped] at h; exact Or.inl h
  | cons g₀ rest ih =>
    rcases g₀ with ⟨k₀, ds⟩
    by_cases h : k₀ = k
    · intro hm
      simp only [insertGrouped, if_pos h, List.map_cons, List.mem_cons] at hm ⊢
      rcases hm with h1 | h1
      · exact Or.inl (h1.trans h)
      · exact Or.inr (Or.inr h1)
    · intro hm
      simp only [insertGrouped, if_neg h, List.map_cons, List.mem_cons] at hm ⊢
      rcases hm with h1 | h1
      · exact Or.inr (Or.inl h1)
      · rcases ih h1 with h2 | h2
        · exact Or.inl h2
        · exact Or.inr (Or.inr h2)

/-- Every key of the level-grouping fold is either a starting key or the
level of one of the grouped donors. -/
theorem groupFold_keys (l : List Donor) :
    ∀ gs, ∀ g ∈ l.foldl (fun gs d => insertGrouped d.level d gs) gs,
      g.1 ∈ gs.map Prod.fst ∨ ∃ d ∈ l, g.1 = d.level := by
  induction l with
  | nil =>
    intro gs g hg
    exact Or.inl (List.mem_map_of_mem _ hg)
  | cons d rest ih =>
    intro gs g hg
    rcases ih (insertGrouped d.level d gs) g hg with h1 | ⟨d₁, hd₁, e⟩
    · rcases mem_keys_insertGrouped _ _ _ _ h1 with h2 | h2
      · exact Or.inr ⟨d, List.mem_cons_self _ _, h2⟩
      · exact Or.inl h2
    · exact Or.inr ⟨d₁, List.mem_cons_of_mem _ hd₁, e⟩

/-- The running-sum loop of `total_contributions`. -/
theorem foldl_add_totals (l : List Donor) :
    ∀ c : ℚ, l.foldl (fun acc d => acc + d.total_contributions) c =
      c + (l.map Donor.total_contributions).sum := by
  induction l with
  | nil => intro c; simp
  | cons d rest ih =>
    intro c
    simp only [List.foldl_cons, List.map_cons, List.sum_cons]
    rw [ih]
    ring

/-- The ranked view carries the same multiset of donors, hence the same
total. -/
theorem rankedDonors_totals_sum (db : DonorDatabase) :
    (db.rankedDonors.map Donor.total_contributions).sum =
      (db.donorValues.map Donor.total_contributions).sum :=
  (((List.perm_insertionSort byContribRel db.donors).map Prod.snd).map
    Donor.total_contributions).sum_eq

/-- C7 (amended): provided every donor of the registry classifies into
one of the eleven tiers (equivalently, every donor's total is below
250000 in absolute value, so the grouping keys are never `None`), the
sum over all tiers of the per-tier summary's total contribution value
equals the registry-wide `total_contributions` — exactly, since the tier
grouping then partitions the donors.  Without that proviso a donor
beyond the top tier is grouped under the `None` key and its total is
missing from every tier. -/
theorem tier_totals_reconcile (db : DonorDatabase)
    (h : ∀ d ∈ db.donorValues, (d.level).isSome = true) :
    ((db.donor_level_stats.filter (fun g => g.1.isSome)).map
        (fun g => g.2.total)).sum = db.total_contributions := by
  have hkeys : ∀ g ∈ db.donors_by_level, g.1.isSome = true := by
    intro g hg
    rcases groupFold_keys db.rankedDonors [] g hg with h1 | ⟨d, hd, e⟩
    · simp at h1
    · rw [e]
      apply h
      exact ((List.perm_insertionSort byContribRel db.donors).map
        Prod.snd).mem_iff.mp hd
  have hfilter : db.donor_level_stats.filter (fun g => g.1.isSome) =
      db.donor_level_stats := by
    apply List.filter_eq_self.mpr
    intro g hg
    rw [DonorDatabase.donor_level_stats] at hg
    obtain ⟨g₀, hg₀, rfl⟩ := List.mem_map.mp hg
    exact hkeys g₀ hg₀
  have hstats : (db.donor_level_stats.map (fun g => g.2.total)).sum =
      (db.donors_by_level.map
        (fun g => (g.2.map Donor.total_contributions).sum)).sum := by
    rw [DonorDatabase.donor_level_stats, List.map_map]
    rfl
  rw [hfilter, hstats, DonorDatabase.donors_by_level,
    groupFold_totals_sum db.rankedDonors [], rankedDonors_totals_sum,
    DonorDatabase.total_contributions, foldl_add_totals]
  simp

/-- Witness for C7's amended theorem on a one-donor database with a
single 10-unit payment. -/
theorem tier_totals_reconcile_witness :
    (∀ d ∈ (DonorDatabase.build [mkRow 1 101 ContribType.Payment 10]).donorValues,
      (d.level).isSome = true) ∧
    (((DonorDatabase.build [mkRow 1 101 ContribType.Payment 10]).donor_level_stats.filter
        (fun g => g.1.isSome)).map (fun g => g.2.total)).sum =
      (DonorDatabase.build [mkRow 1 101 ContribType.Payment 10]).total_contributions := by
  have h : ∀ d ∈ (DonorDatabase.build [mkRow 1 101 ContribType.Payment 10]).donorValues,
      (d.level).isSome = true := by
    norm_num [DonorDatabase.build, DonorDatabase.ingestRow,
      DonorDatabase.donorValues, mkRow, Donor.init, Donor.add_payment,
      Payment.make, dictGet?, dictInsert, Donor.level, Donor.total_contributions,
      Contributions.add, Contributions.total, classifyLevel, DonorLevel.list,
      DonorLevel.value, abs_of_nonneg]
  exact ⟨h, tier_totals_reconcile _ h⟩

/-- C7 counterexample to the unrestricted claim: a registry whose single
donor gave 300000 — beyond the top tier — has per-tier totals summing to
0 while `total_contributions` is 300000: the tier grouping does not
partition the donors, the out-of-range donor being grouped under the
`None` key.  (On this input the Python source in fact fails even harder:
with a `None` key present, `get_donors_by_level()` returns that key's
bare list, and `get_donor_level_stats` crashes calling `.items()` on it;
the model totals the `None` group as a separate entry, which only makes
the counterexample conservative.) -/
theorem tier_totals_counterexample :
    (((DonorDatabase.build [mkRow 1 101 ContribType.Payment 300000]).donor_level_stats.filter
        (fun g => g.1.isSome)).map (fun g => g.2.total)).sum = 0 ∧
    (DonorDatabase.build
      [mkRow 1 101 ContribType.Payment 300000]).total_contributions = 300000 := by
  constructor
  · norm_num [DonorDatabase.build, DonorDatabase.ingestRow,
      DonorDatabase.donor_level_stats, DonorDatabase.donors_by_level,
      DonorDatabase.rankedDonors, DonorDatabase.donors_by_contribution,
      DonorDatabase.donorValues, insertGrouped, levelStatsOf, mkRow,
      Donor.init, Donor.add_payment, Payment.make, dictGet?, dictInsert,
      Donor.level, Donor.total_contributions, Contributions.add,
      Contributions.total, classifyLevel, DonorLevel.list, DonorLevel.value,
      List.insertionSort, abs_of_nonneg]
  · norm_num [DonorDatabase.build, DonorDatabase.ingestRow,
      DonorDatabase.total_contributions, DonorDatabase.donorValues, mkRow,
      Donor.init, Donor.add_payment, Payment.make, dictGet?, dictInsert,
      Donor.total_contributions, Contributions.add, Contributions.total]

/-- Membership after a dict write: the entry is the written one or a
pre-existing one. -/
theorem mem_dictInsert {β : Type} (k : Int) (v : β) (l : List (Int × β)) :
    ∀ e ∈ dictInsert k v l, e = (k, v) ∨ e ∈ l := by
  induction l with
  | nil =>
    intro e he
    simp [dictInsert] at he
    exact Or.inl he
  | cons p rest ih =>
    rcases p with ⟨k₀, v₀⟩
    intro e he
    by_cases h : k₀ = k
    · simp only [dictInsert, if_pos h, List.mem_cons] at he
      rcases he with h1 | h1
      · exact Or.inl h1
      · exact Or.inr (List.mem_cons_of_mem _ h1)
    · simp only [dictInsert, if_neg h, List.mem_cons] at he
      rcases he with h1 | h1
      · exact Or.inr (h1 ▸ List.mem_cons_self _ _)
      · rcases ih e h1 with h2 | h2
        · exact Or.inl h2
        · exact Or.inr (List.mem_cons_of_mem _ h2)

/-- A successful dict lookup returns a stored value. -/
theorem dictGet?_mem {β : Type} (k : Int) (l : List (Int × β)) (v : β) :
    dictGet? k l = some v → ∃ k₁, (k₁, v) ∈ l := by
  induction l with
  | nil => intro h; simp [dictGet?] at h
  | cons p rest ih =>
    rcases p with ⟨k₀, v₀⟩
    intro h
    by_cases hk : k₀ = k
    · simp only [dictGet?, if_pos hk, Option.some.injEq] at h
      exact ⟨k₀, h ▸ List.mem_cons_self _ _⟩
    · simp only [dictGet?, if_neg hk] at h
      obtain ⟨k₁, hk₁⟩ := ih h
      exact ⟨k₁, List.mem_cons_of_mem _ hk₁⟩

/-- A dict write never shrinks the dict. -/
theorem length_le_dictInsert {β : Type} (k : Int) (v : β) (l : List (Int × β)) :
    l.length ≤ (dictInsert k v l).length := by
  induction l with
  | nil => simp [dictInsert]
  | cons p rest ih =>
    rcases p with ⟨k₀, v₀⟩
    by_cases h : k₀ = k
    · simp [dictInsert, if_pos h]
    · simp only [dictInsert, if_neg h, List.length_cons]
      exact Nat.succ_le_succ ih

/-- `add_payment` never decreases the number of stored payments. -/
theorem add_payment_num_le (d : Donor) (tid uid : Int) (ct : ContribType)
    (ad pd : Option Int) (pt rm : String) (amt : ℚ) (gl : Int) :
    d.num_payments ≤ (d.add_payment tid uid ct ad pd pt rm amt gl).2.num_payments := by
  by_cases h : d.id = uid
  · simp only [Donor.add_payment, if_pos h, Donor.num_payments]
    exact length_le_dictInsert _ _ _
  · simp [Donor.add_payment, if_neg h]

/-- A freshly created donor accepts its creating row's payment (the ids
match by construction) and then stores exactly one payment. -/
theorem init_add_payment_num (u tid : Int) (fn ln full em s1 s2 ci st : String)
    (po : Int) (me : Option Int) (ct : ContribType) (ad pd : Option Int)
    (pt rm : String) (amt : ℚ) (gl : Int) :
    ((Donor.init u fn ln full em s1 s2 ci st po me).add_payment tid u ct ad pd
      pt rm amt gl).2.num_payments = 1 := by
  simp [Donor.init, Donor.add_payment, dictInsert, Donor.num_payments]

/-- Ingestion invariant: every stored donor holds at least one payment. -/
theorem build_donors_num_inv (rows : List Row) :
    ∀ db : DonorDatabase, (∀ e ∈ db.donors, 1 ≤ e.2.num_payments) →
      ∀ e ∈ (rows.foldl DonorDatabase.ingestRow db).donors, 1 ≤ e.2.num_payments := by
  induction rows with
  | nil => intro db h; simpa using h
  | cons row rest ih =>
    intro db h
    rw [List.foldl_cons]
    apply ih
    intro e he
    simp only [DonorDatabase.ingestRow] at he
    rcases mem_dictInsert _ _ _ e he with h1 | h1
    · rw [h1]
      rcases hget : dictGet? row.user_id db.donors with _ | d
      · exact le_of_eq (init_add_payment_num row.user_id row.transaction_id
          row.firstname row.lastname row.full_name row.email row.street_1
          row.street_2 row.city row.state row.postal
          row.membership_expiration_date row.type row.actual_date
          row.posted_date row.payment_type row.response_meta row.amount
          row.gl_code).symm
      · obtain ⟨k₁, hk₁⟩ := dictGet?_mem _ _ _ hget
        exact le_trans (h (k₁, d) hk₁) (add_payment_num_le d _ _ _ _ _ _ _ _ _)
    · exact h e h1

/-- Decomposition of membership after an `insertGrouped` step. -/
theorem mem_insertGrouped (k : Option DonorLevel) (d : Donor)
    (gs : List (Option DonorLevel × List Donor)) :
    ∀ g ∈ insertGrouped k d gs,
      (∃ g₀ ∈ gs, g = (g₀.1, g₀.2 ++ [d])) ∨ g ∈ gs ∨ g = (k, [d]) := by
  induction gs with
  | nil =>
    intro g hg
    simp [insertGrouped] at hg
    exact Or.inr (Or.inr hg)
  | cons g₀ rest ih =>
    rcases g₀ with ⟨k₀, ds⟩
    intro g hg
    by_cases h : k₀ = k
    · simp only [insertGrouped, if_pos h, List.mem_cons] at hg
      rcases hg with h1 | h1
      · exact Or.inl ⟨(k₀, ds), List.mem_cons_self _ _, h1⟩
      · exact Or.inr (Or.inl (List.mem_cons_of_mem _ h1))
    · simp only [insertGrouped, if_neg h, List.mem_cons] at hg
      rcases hg with h1 | h1
      · exact Or.inr (Or.inl (h1 ▸ List.mem_cons_self _ _))
      · rcases ih g h1 with ⟨g₁, hg₁, e⟩ | h2 | h2
        · exact Or.inl ⟨g₁, List.mem_cons_of_mem _ hg₁, e⟩
        · exact Or.inr (Or.inl (List.mem_cons_of_mem _ h2))
        · exact Or.inr (Or.inr h2)

/-- Every group produced by the level-grouping fold is non-empty, and
its members all come from the grouped list (stated via a predicate they
all satisfy). -/
theorem groupFold_elems (P : Donor → Prop) (l : List Donor)
    (hl : ∀ d ∈ l, P d) :
    ∀ gs, (∀ g ∈ gs, g.2 ≠ [] ∧ ∀ x ∈ g.2, P x) →
      ∀ g ∈ l.foldl (fun gs d => insertGrouped d.level d gs) gs,
        g.2 ≠ [] ∧ ∀ x ∈ g.2, P x := by
  induction l with
  | nil => intro gs h g hg; exact h g hg
  | cons d rest ih =>
    intro gs h g hg
    rw [List.foldl_cons] at hg
    refine ih (fun x hx => hl x (List.mem_cons_of_mem _ hx)) _ ?_ g hg
    intro g₀ hg₀
    rcases mem_insertGrouped _ _ _ g₀ hg₀ with ⟨g₁, hg₁, e⟩ | h2 | e
    · obtain ⟨hne, hP⟩ := h g₁ hg₁
      rw [e]
      constructor
      · simp
      · intro x hx
        rcases List.mem_append.mp hx with hx | hx
        · exact hP x hx
        · simp only [List.mem_singleton] at hx
          exact hx ▸ hl d (List.mem_cons_self _ _)
    · exact h g₀ h2
    · rw [e]
      refine ⟨by simp, ?_⟩
      intro x hx
      simp only [List.mem_singleton] at hx
      exact hx ▸ hl d (List.mem_cons_self _ _)

/-- C10: every donor present in a constructed database holds at least
one payment — a donor is created only on a row bearing its user id, and
that row's payment is always accepted since the ids match — and
consequently every per-tier summary of `get_donor_level_stats` is
computed over a non-empty collection of payment amounts. -/
theorem build_donors_have_payments (rows : List Row) :
    (∀ e ∈ (DonorDatabase.build rows).donors, 1 ≤ e.2.num_payments) ∧
    (∀ g ∈ (DonorDatabase.build rows).donor_level_stats, g.2.payments ≠ []) := by
  have h1 : ∀ e ∈ (DonorDatabase.build rows).donors, 1 ≤ e.2.num_payments := by
    refine build_donors_num_inv rows ⟨[], []⟩ ?_
    intro e he
    simp at he
  refine ⟨h1, ?_⟩
  intro g hg
  rw [DonorDatabase.donor_level_stats] at hg
  obtain ⟨g₀, hg₀, rfl⟩ := List.mem_map.mp hg
  have hranked : ∀ d ∈ (DonorDatabase.build rows).rankedDonors, 1 ≤ d.num_payments := by
    intro d hd
    have hd' : d ∈ (DonorDatabase.build rows).donorValues :=
      ((List.perm_insertionSort byContribRel _).map Prod.snd).mem_iff.mp hd
    obtain ⟨e, he, rfl⟩ := List.mem_map.mp hd'
    exact h1 e he
  obtain ⟨hne, hP⟩ := groupFold_elems (fun d => 1 ≤ d.num_payments) _ hranked []
    (by intro g hg; simp at hg) g₀ hg₀
  rcases e : g₀.2 with _ | ⟨d₀, ds⟩
  · exact absurd e hne
  · intro hcontra
    simp only [levelStatsOf, e, List.map_cons, List.flatten_cons] at hcontra
    obtain ⟨hnil, _⟩ := List.append_eq_nil.mp hcontra
    have hd₀ : 1 ≤ d₀.num_payments := hP d₀ (e ▸ List.mem_cons_self _ _)
    rw [List.map_eq_nil_iff] at hnil
    have : d₀.num_payments = 0 := by
      simp only [Donor.num_payments]
      have := congrArg List.length hnil
      simpa [Donor.paymentsValues] using this
    omega

end DonorDB
